import Mathlib

/-!
Verification of the AniArtwork artwork-cache service.

This file gives a shallow embedding of the Go source of the service
(main.go, task.go, utils.go and the unnamed server variants) and proves
or refutes the frozen claims about it.

Conventions of the embedding:
  - Go strings are Lean `String`s; the byte-level Go operations
    (`strings.HasPrefix`, `strings.Contains`, `strings.Split`, ...) are
    re-implemented over `List Char`.  For the ASCII separators and
    prefixes the service uses, byte-wise and character-wise processing
    agree, since UTF-8 preserves both boundaries and ordering.
  - Go machine integers are `Int` (no arithmetic in the service comes
    near an overflow).
  - Fallible Go functions returning `(T, error)` become `Except String T`.
  - The file system is an explicit association list from path to size,
    threaded through the functions that touch it, together with a trace
    of the externally observable operations (create, write, rename,
    remove, download, transform).
  - External library calls (HTTP fetch, ffmpeg, image decoding and
    resizing, JPEG encoding) are opaque: their outcomes are parameters
    of the embedded functions, exactly as the spec treats them.
-/

namespace AniArt

/-! ### Go string primitives, re-implemented structurally -/

/-- Model of Go `strings.HasPrefix`: `pre` is a prefix of `s`. -/
def goHasPrefix (s pre : String) : Bool :=
  List.isPrefixOf pre.data s.data

/-- Model of Go `strings.HasSuffix`: `suf` is a suffix of `s`. -/
def goHasSuffix (s suf : String) : Bool :=
  List.isSuffixOf suf.data s.data

/-- Contiguous-occurrence check on character lists. -/
def listInfixCheck (sub : List Char) : List Char → Bool
  | [] => sub.isEmpty
  | c :: t => List.isPrefixOf sub (c :: t) || listInfixCheck sub t

/-- Model of Go `strings.Contains`: `sub` occurs contiguously in `s`. -/
def goContains (s sub : String) : Bool :=
  listInfixCheck sub.data s.data

/-- Split a character list at every occurrence of the separator
character, keeping empty segments, as Go `strings.Split` does for a
one-character separator. -/
def goSplitChList (sep : Char) : List Char → List (List Char)
  | [] => [[]]
  | c :: rest =>
    let r := goSplitChList sep rest
    if c = sep then [] :: r
    else
      match r with
      | h :: t => (c :: h) :: t
      | [] => [[c]]

/-- Model of Go `strings.Split(s, sep)` for a one-character separator. -/
def goSplitCh (s : String) (sep : Char) : List String :=
  (goSplitChList sep s.data).map (fun l => String.mk l)

/-- Model of Go `strings.SplitN(s, sep, 2)` for a one-character
separator: split at the first occurrence only. -/
def goSplitN2 (s : String) (sep : Char) : List String :=
  let pre := s.data.takeWhile (fun c => c ≠ sep)
  let post := s.data.dropWhile (fun c => c ≠ sep)
  match post with
  | [] => [String.mk pre]
  | _ :: rest => [String.mk pre, String.mk rest]

/-- Model of Go `strings.TrimSpace`: strip whitespace from both ends. -/
def goTrimSpace (s : String) : String :=
  String.mk (((s.data.dropWhile Char.isWhitespace).reverse.dropWhile
    Char.isWhitespace).reverse)

/-- Model of Go `strings.Trim(s, cutset)` for the one-character cutset
used by the manifest parser (the double-quote character). -/
def goTrimCh (s : String) (cut : Char) : String :=
  String.mk (((s.data.dropWhile (fun c => c = cut)).reverse.dropWhile
    (fun c => c = cut)).reverse)

/-- Model of Go `strings.Join(l, "")`: concatenation. -/
def goJoinEmpty (l : List String) : String :=
  String.mk (l.flatMap String.data)

/-- Numeric value of a list of decimal digit characters, `none` if the
list is empty or holds a non-digit. -/
def digitsVal : List Char → Option Nat
  | [] => none
  | l =>
    l.foldl
      (fun acc c =>
        match acc with
        | none => none
        | some n => if c.isDigit then some (n * 10 + (c.toNat - 48)) else none)
      (some 0)

/-- Model of Go `strconv.Atoi` in the way the service uses it: the
parsed value on success and `0` when parsing fails (the service
discards the error with a blank identifier, so the field keeps the
returned zero value). -/
def goAtoi (s : String) : Int :=
  match s.data with
  | '-' :: rest =>
    match digitsVal rest with
    | some n => -(n : Int)
    | none => 0
  | '+' :: rest =>
    match digitsVal rest with
    | some n => (n : Int)
    | none => 0
  | l =>
    match digitsVal l with
    | some n => (n : Int)
    | none => 0

example : goAtoi "480" = 480 := by decide
example : goAtoi "-12" = -12 := by decide
example : goAtoi "12a" = 0 := by decide
example : goAtoi "" = 0 := by decide
example : goSplitCh "a,,b" ',' = ["a", "", "b"] := by decide
example : goSplitCh "" ',' = [""] := by decide
example : goSplitN2 "k=v=w" '=' = ["k", "v=w"] := by decide
example : goSplitN2 "k" '=' = ["k"] := by decide
example : goTrimCh "\"avc1\"" '"' = "avc1" := by decide
example : goContains "xavc1y" "avc1" = true := by decide
example : goHasSuffix "is1-ssl.mzstatic.com" ".mzstatic.com" = true := by decide
example : goHasSuffix "apple.com" ".apple.com" = false := by decide

/-! ### Manifest stream selector (utils.go) -/

/-- Parsed rendition metadata, translated from the `streamInfo` struct
of utils.go.  The `frameRate` field of the Go struct is parsed with
`strconv.ParseFloat` but never read by any code in the repository, so
it is left out of the embedding (no observable behavior depends on
it). -/
structure StreamInfo where
  averageBandwidth : Int := 0
  bandwidth : Int := 0
  codecs : String := ""
  width : Int := 0
  height : Int := 0
  deriving Repr, DecidableEq

/-- Model of `parseStreamInfo` (utils.go): drop the 18-byte
`#EXT-X-STREAM-INF:` prefix, split the remainder on commas, and fold
the `key=value` attributes into the struct, skipping malformed parts.
Byte slicing `line[18:]` is character slicing here; the two agree
whenever the line starts with the 18 ASCII characters of the prefix,
which is the only situation in which the scanner calls this
function. -/
def parseStreamInfo (line : String) : StreamInfo :=
  let parts := goSplitCh (String.mk (line.data.drop 18)) ','
  parts.foldl
    (fun info part =>
      match goSplitN2 part '=' with
      | [k, v] =>
        let key := goTrimSpace k
        let value := goTrimCh v '"'
        if key = "AVERAGE-BANDWIDTH" then { info with averageBandwidth := goAtoi value }
        else if key = "BANDWIDTH" then { info with bandwidth := goAtoi value }
        else if key = "CODECS" then { info with codecs := value }
        else if key = "RESOLUTION" then
          match goSplitCh value 'x' with
          | [w, h] => { info with width := goAtoi w, height := goAtoi h }
          | _ => info
        else info
      | _ => info)
    {}

/-- Model of `isValidStream` (utils.go): the codec list must exclude
the high-efficiency tag `hvc1`, include the baseline tag `avc1`, and
the width must be at least 450. -/
def isValidStream (info : StreamInfo) : Bool :=
  !goContains info.codecs "hvc1" && goContains info.codecs "avc1" &&
    decide (info.width ≥ 450)

/-- Index of the first contiguous occurrence of `sub`. -/
def infixIdx (sub : List Char) : List Char → Option Nat
  | [] => if sub.isEmpty then some 0 else none
  | c :: t =>
    if List.isPrefixOf sub (c :: t) then some 0
    else (infixIdx sub t).map (· + 1)

/-- Model of `resolveURL` (utils.go), which delegates to
`net/url.Parse` and `ResolveReference`.  The library behavior is
modelled for URLs of the shape `scheme://host/path` without query or
fragment, the only shape the service ever passes: a reference that is
itself absolute (has a scheme part) resolves to itself; a rooted
reference replaces the base path; any other reference is merged onto
the directory of the base path.  A base without an authority falls
back to returning the reference, mirroring the error fallback of the
Go function. -/
def resolveURL (base relative : String) : String :=
  if goContains relative "://" then relative
  else
    match infixIdx "://".data base.data with
    | none => relative
    | some i =>
      let afterHost := (base.data.drop (i + 3)).dropWhile (fun c => c ≠ '/')
      let authorityEnd := base.data.length - afterHost.length
      let authority := String.mk (base.data.take authorityEnd)
      let path := String.mk (base.data.drop authorityEnd)
      if goHasPrefix relative "/" then authority ++ relative
      else
        let dir := String.mk ((path.data.reverse.dropWhile (fun c => c ≠ '/')).reverse)
        if dir = "" then authority ++ "/" ++ relative
        else authority ++ dir ++ relative

/-- Mutable locals of the scanning loop of `getHighQualityStreamURL`
(utils.go): the selected URL, the running maximum width, and the
pending URL slot. -/
structure ScanState where
  selectedStreamURL : String
  maxWidth : Int
  streamURL : String
  deriving Repr, DecidableEq

/-- The loop state at entry of `getHighQualityStreamURL`. -/
def initScanState : ScanState :=
  ⟨"", 0, ""⟩

/-- One iteration of the scanning loop of `getHighQualityStreamURL`
(utils.go): a metadata line raises the running maximum width and
clears the pending URL slot when it announces a valid stream of
strictly larger width; a line starting with `http` fills the empty
pending URL slot and, when a positive maximum has been seen, becomes
the selected URL. -/
def scanLine (st : ScanState) (line : String) : ScanState :=
  if goHasPrefix line "#EXT-X-STREAM-INF:" then
    let info := parseStreamInfo line
    if isValidStream info then
      if info.width > st.maxWidth then
        { st with maxWidth := info.width, streamURL := "" }
      else st
    else st
  else if goHasPrefix line "http" && st.streamURL == "" then
    let st1 := { st with streamURL := line }
    if st.maxWidth > 0 then { st1 with selectedStreamURL := line } else st1
  else st

/-- Model of `getHighQualityStreamURL` (utils.go).  The HTTP fetch of
the master playlist is the external boundary: the function is given
the fetched document as its list of lines (`bufio.Scanner` yields the
document line by line); the fetch-failure branch is outside the
model. -/
def getHighQualityStreamURL (masterPlaylistURL : String) (lines : List String) :
    Except String String :=
  let final := lines.foldl scanLine initScanState
  if final.selectedStreamURL = "" then Except.error "no suitable stream found"
  else Except.ok (resolveURL masterPlaylistURL final.selectedStreamURL)

example :
    parseStreamInfo "#EXT-X-STREAM-INF:BANDWIDTH=2000,CODECS=\"avc1\",RESOLUTION=480x270" =
      { bandwidth := 2000, codecs := "avc1", width := 480, height := 270 } := by
  decide

example :
    getHighQualityStreamURL "https://example.apple.com/master.m3u8"
      ["#EXT-X-STREAM-INF:BANDWIDTH=1000,CODECS=\"avc1\",RESOLUTION=320x180",
       "http://example.com/320.m3u8",
       "#EXT-X-STREAM-INF:BANDWIDTH=2000,CODECS=\"avc1\",RESOLUTION=480x270",
       "http://example.com/480.m3u8",
       "#EXT-X-STREAM-INF:BANDWIDTH=3000,CODECS=\"hvc1\",RESOLUTION=720x404",
       "http://example.com/720.m3u8"] =
      Except.ok "http://example.com/480.m3u8" := by
  rfl

example :
    resolveURL "https://example.apple.com/a/master.m3u8" "media/480.m3u8" =
      "https://example.apple.com/a/media/480.m3u8" := by
  decide

/-! ### URL validation (utils.go) -/

/-- Model of `isValidAppleURL` (utils.go).  The Go function parses the
URL string with `net/url` and reads `parsedURL.Hostname()`; that
parsing is the library boundary of the embedding, so the function is
modelled over the extracted hostname.  It succeeds unless the hostname
fails both suffix checks. -/
def isValidAppleURL (hostname : String) : Except String Unit :=
  if !goHasSuffix hostname ".apple.com" && !goHasSuffix hostname ".mzstatic.com" then
    Except.error "URL must be from *.apple.com or *.mzstatic.com domain"
  else Except.ok ()

/-! ### MD5 digest (crypto/md5), used by the key deriver -/

/-- Modulus of 32-bit words. -/
def m32 : Nat := 4294967296

/-- 32-bit addition. -/
def add32 (a b : Nat) : Nat := (a + b) % m32

/-- 32-bit complement. -/
def not32 (a : Nat) : Nat := 4294967295 ^^^ a

/-- 32-bit left rotation, for arguments below `m32`. -/
def rotl32 (x n : Nat) : Nat := ((x <<< n) % m32) ||| (x >>> (32 - n))

/-- The 64 sine-derived MD5 round constants. -/
def md5K : List Nat :=
  [0xd76aa478, 0xe8c7b756, 0x242070db, 0xc1bdceee,
   0xf57c0faf, 0x4787c62a, 0xa8304613, 0xfd469501,
   0x698098d8, 0x8b44f7af, 0xffff5bb1, 0x895cd7be,
   0x6b901122, 0xfd987193, 0xa679438e, 0x49b40821,
   0xf61e2562, 0xc040b340, 0x265e5a51, 0xe9b6c7aa,
   0xd62f105d, 0x02441453, 0xd8a1e681, 0xe7d3fbc8,
   0x21e1cde6, 0xc33707d6, 0xf4d50d87, 0x455a14ed,
   0xa9e3e905, 0xfcefa3f8, 0x676f02d9, 0x8d2a4c8a,
   0xfffa3942, 0x8771f681, 0x6d9d6122, 0xfde5380c,
   0xa4beea44, 0x4bdecfa9, 0xf6bb4b60, 0xbebfbc70,
   0x289b7ec6, 0xeaa127fa, 0xd4ef3085, 0x04881d05,
   0xd9d4d039, 0xe6db99e5, 0x1fa27cf8, 0xc4ac5665,
   0xf4292244, 0x432aff97, 0xab9423a7, 0xfc93a039,
   0x655b59c3, 0x8f0ccc92, 0xffeff47d, 0x85845dd1,
   0x6fa87e4f, 0xfe2ce6e0, 0xa3014314, 0x4e0811a1,
   0xf7537e82, 0xbd3af235, 0x2ad7d2bb, 0xeb86d391]

/-- The 64 MD5 per-round rotation amounts. -/
def md5S : List Nat :=
  [7, 12, 17, 22, 7, 12, 17, 22, 7, 12, 17, 22, 7, 12, 17, 22,
   5, 9, 14, 20, 5, 9, 14, 20, 5, 9, 14, 20, 5, 9, 14, 20,
   4, 11, 16, 23, 4, 11, 16, 23, 4, 11, 16, 23, 4, 11, 16, 23,
   6, 10, 15, 21, 6, 10, 15, 21, 6, 10, 15, 21, 6, 10, 15, 21]

/-- Little-endian byte decomposition, `n` bytes wide. -/
def leBytes : Nat → Nat → List Nat
  | 0, _ => []
  | n + 1, v => (v % 256) :: leBytes n (v / 256)

/-- Little-endian word from a list of bytes. -/
def leWord (bytes : List Nat) : Nat :=
  bytes.foldr (fun b acc => b + 256 * acc) 0

/-- Fuelled chunking helper (structural recursion so that concrete
digests reduce inside the kernel). -/
def chunksOfAux (fuel n : Nat) (l : List α) : List (List α) :=
  match fuel with
  | 0 => []
  | fuel + 1 =>
    match l with
    | [] => []
    | _ => if n = 0 then [] else l.take n :: chunksOfAux fuel n (l.drop n)

/-- The list cut into consecutive chunks of `n` elements. -/
def chunksOf (n : Nat) (l : List α) : List (List α) :=
  chunksOfAux l.length n l

/-- MD5 padding: append the `0x80` marker, zeros up to 56 mod 64, and
the 64-bit little-endian bit length. -/
def md5Pad (msg : List Nat) : List Nat :=
  let len := msg.length
  let z := (119 - len % 64) % 64
  msg ++ [128] ++ List.replicate z 0 ++ leBytes 8 (8 * len)

/-- Round function and message index of MD5 round `i`. -/
def md5F (i b c d : Nat) : Nat × Nat :=
  if i < 16 then ((b &&& c) ||| (not32 b &&& d), i)
  else if i < 32 then ((d &&& b) ||| (not32 d &&& c), (5 * i + 1) % 16)
  else if i < 48 then (b ^^^ c ^^^ d, (3 * i + 5) % 16)
  else (c ^^^ (b ||| not32 d), 7 * i % 16)

/-- One MD5 round on the four-word state. -/
def md5Round (M : List Nat) (st : Nat × Nat × Nat × Nat) (i : Nat) :
    Nat × Nat × Nat × Nat :=
  let (a, b, c, d) := st
  let (f, g) := md5F i b c d
  let f2 := (f + a + md5K.getD i 0 + M.getD g 0) % m32
  (d, add32 b (rotl32 f2 (md5S.getD i 0)), b, c)

/-- Digest one 64-byte chunk into the running state. -/
def md5Chunk (st : Nat × Nat × Nat × Nat) (chunk : List Nat) :
    Nat × Nat × Nat × Nat :=
  let M := (chunksOf 4 chunk).map leWord
  let (a, b, c, d) := (List.range 64).foldl (md5Round M) st
  let (a0, b0, c0, d0) := st
  (add32 a0 a, add32 b0 b, add32 c0 c, add32 d0 d)

/-- MD5 digest of a byte sequence, as 16 bytes. -/
def md5Bytes (msg : List Nat) : List Nat :=
  let st0 : Nat × Nat × Nat × Nat :=
    (0x67452301, 0xefcdab89, 0x98badcfe, 0x10325476)
  let (a, b, c, d) := (chunksOf 64 (md5Pad msg)).foldl md5Chunk st0
  leBytes 4 a ++ leBytes 4 b ++ leBytes 4 c ++ leBytes 4 d

/-- Lowercase hexadecimal rendering of one byte. -/
def hexByte (b : Nat) : List Char :=
  [Nat.digitChar (b / 16), Nat.digitChar (b % 16)]

/-- Model of `hex.EncodeToString`: lowercase hex of a byte list. -/
def hexEncode (bytes : List Nat) : String :=
  String.mk (bytes.flatMap hexByte)

/-- MD5 digest of the UTF-8 bytes of a string, hex encoded: the
composition `hex.EncodeToString(md5.Sum([]byte(s))[:])` used by both
key derivers of the service. -/
def md5Hex (s : String) : String :=
  hexEncode (md5Bytes (s.toUTF8.toList.map (fun b => b.toNat)))

/-! ### Key derivers (utils.go) -/

/-- Model of `generateKey` (utils.go): the MD5 hex digest of the URL. -/
def generateKey (url : String) : String :=
  md5Hex url

/-- Model of `generateArtistSquareKey` (utils.go).  Go `sort.Strings`
sorts the caller's slice in place (ascending byte-wise order, which
agrees with character-wise order under UTF-8), so the embedding
returns both the computed key and the slice as the caller observes it
after the call.  The sort is embedded as insertion sort: sortedness
under a total antisymmetric order determines the result of any
sorting algorithm uniquely, so the choice is immaterial. -/
def generateArtistSquareKey (imageUrls : List String) : String × List String :=
  let sorted := List.insertionSort (fun a b => a ≤ b) imageUrls
  (md5Hex (goJoinEmpty sorted), sorted)

/-! ### File-system and trace model -/

/-- Externally observable operations of the generation paths: store
operations plus the network/transform effects the spec talks about. -/
inductive FsOp where
  | create (path : String)
  | write (path : String) (size : Nat)
  | rename (src dst : String)
  | remove (path : String)
  | download (url : String)
  | transform
  deriving Repr, DecidableEq

/-- Trace of externally observable operations. -/
abbrev Trace := List FsOp

/-- The store: a map from file path to the size of the file there, if
any. -/
abbrev FS := String → Option Nat

/-- The store with no files at all. -/
def emptyFS : FS := fun _ => none

/-- Model of a successful `os.Stat`: the path names a file. -/
def statExists (fs : FS) (p : String) : Bool :=
  (fs p).isSome

/-- Write the file at `p`, replacing any previous version. -/
def setFile (fs : FS) (p : String) (sz : Nat) : FS :=
  fun q => if q = p then some sz else fs q

/-- Model of `os.Remove`. -/
def removeFile (fs : FS) (p : String) : FS :=
  fun q => if q = p then none else fs q

/-- Model of `os.Rename`: move the file at `src` to `dst`. -/
def renameFile (fs : FS) (src dst : String) : Except String FS :=
  match fs src with
  | some sz => Except.ok (setFile (removeFile fs src) dst sz)
  | none => Except.error "no such file"

/-- Directory for animated clips, as set up in the init block. -/
def animatedArt : String := "cache/animated-art"

/-- Directory for artist squares. -/
def artistSquares : String := "cache/artist-squares"

/-- Directory for iCloud art. -/
def icloudArt : String := "cache/icloud-art"

/-- Model of `filepath.Join` for the directory/file pairs in use. -/
def filepathJoin (dir file : String) : String :=
  dir ++ "/" ++ file

/-- Final path of an animated clip. -/
def gifPath (key : String) : String :=
  filepathJoin animatedArt (key ++ ".gif")

/-- Temporary path used while an animated clip is generated. -/
def tempGifPath (key : String) : String :=
  filepathJoin animatedArt (key ++ "_temp.gif")

/-- Final path of an artist square. -/
def squarePath (key : String) : String :=
  filepathJoin artistSquares (key ++ ".jpg")

/-- Final path of an iCloud art copy. -/
def icloudPath (key : String) : String :=
  filepathJoin icloudArt (key ++ ".jpg")

/-! ### Artifact generators (task.go) -/

/-- An opaque decoded image: pixel manipulation is delegated to
external libraries, so only identity matters to the embedding. -/
structure Image where
  id : Nat
  deriving Repr, DecidableEq

/-- An axis-aligned rectangle, as produced by `image.Rect`. -/
structure Rect where
  x0 : Int
  y0 : Int
  x1 : Int
  y1 : Int
  deriving Repr, DecidableEq

/-- Model of `createArtistSquare` (task.go): a 500-pixel square canvas
partitioned by a layout switch on the image count; every other count
is rejected.  The composite is represented by its draw list: which
source image is drawn into which cell. -/
def createArtistSquare (images : List Image) : Except String (List (Rect × Image)) :=
  let size : Int := 500
  let half := size / 2
  match images with
  | [i0, i1] =>
    Except.ok [(⟨0, 0, half, size⟩, i0), (⟨half, 0, size, size⟩, i1)]
  | [i0, i1, i2] =>
    Except.ok [(⟨0, 0, size, half⟩, i0), (⟨0, half, half, size⟩, i1),
      (⟨half, half, size, size⟩, i2)]
  | [i0, i1, i2, i3] =>
    Except.ok [(⟨0, 0, half, half⟩, i0), (⟨half, 0, size, half⟩, i1),
      (⟨0, half, half, size⟩, i2), (⟨half, half, size, size⟩, i3)]
  | _ => Except.error ("unsupported number of images: " ++ toString images.length)

/-- Model of `createICloudArt` (task.go): resize to a fixed 1024-pixel
square; never fails. -/
def createICloudArt (img : Image) : Except String (Int × Int × Image) :=
  let size : Int := 1024
  Except.ok (size, size, img)

/-- Model of `saveJPEG` (task.go): `os.Create` makes a zero-size file
at the requested path and `jpeg.Encode` then writes the payload into
it.  The encoded size is an outcome of the external encoder and is a
parameter.  The branches in which the operating system refuses the
create are outside the model (the service treats them as opaque
errors with no store change). -/
def saveJPEG (fs : FS) (path : String) (encSize : Nat) :
    Except String Unit × FS × Trace :=
  let fs1 := setFile fs path 0
  let fs2 := setFile fs1 path encSize
  (Except.ok (), fs2, [FsOp.create path, FsOp.write path encSize])

/-! ### Background-queue job handlers (task.go) -/

/-- Model of `HandleCreateArtistSquareTask` (task.go).  The JSON
payload is already decoded into `key` and `imageURLs`; the download
loop is summarized by its outcome (the decoded images, or the first
failure), and the JPEG encoder's output size is a parameter.  The
handler first re-checks the store and returns without any effect when
the square already exists. -/
def HandleCreateArtistSquareTask (fs : FS) (key : String) (imageURLs : List String)
    (downloadOutcome : Except String (List Image)) (encSize : Nat) :
    Except String Unit × FS × Trace :=
  let path := squarePath key
  if statExists fs path then (Except.ok (), fs, [])
  else
    let dlTrace : Trace := imageURLs.map FsOp.download
    match downloadOutcome with
    | Except.error e =>
      (Except.error ("failed to download images: " ++ e), fs, dlTrace)
    | Except.ok images =>
      match createArtistSquare images with
      | Except.error e =>
        (Except.error ("failed to create artist square: " ++ e), fs,
          dlTrace ++ [FsOp.transform])
      | Except.ok _square =>
        let (r, fs2, tr2) := saveJPEG fs path encSize
        (r, fs2, dlTrace ++ [FsOp.transform] ++ tr2)

/-- Model of `HandleCreateICloudArtTask` (task.go), shaped like the
artist-square handler: store re-check, then download, resize and
save. -/
def HandleCreateICloudArtTask (fs : FS) (key imageURL : String)
    (downloadOutcome : Except String Image) (encSize : Nat) :
    Except String Unit × FS × Trace :=
  let path := icloudPath key
  if statExists fs path then (Except.ok (), fs, [])
  else
    match downloadOutcome with
    | Except.error e =>
      (Except.error ("failed to download image: " ++ e), fs, [FsOp.download imageURL])
    | Except.ok img =>
      match createICloudArt img with
      | Except.error e =>
        (Except.error ("failed to create iCloud art: " ++ e), fs,
          [FsOp.download imageURL, FsOp.transform])
      | Except.ok _resized =>
        let (r, fs2, tr2) := saveJPEG fs path encSize
        (r, fs2, [FsOp.download imageURL, FsOp.transform] ++ tr2)

/-! ### Animated-clip generation (part_001 of the unnamed sources) -/

/-- Outcome of the external transcoder run: whether it exited with an
error, and the size of the file it left at the temporary output path,
if it wrote one. -/
structure FfmpegOutcome where
  err : Bool
  output : Option Nat
  deriving Repr, DecidableEq

/-- The deferred cleanup of `generateArtworkAsync`: remove the
temporary file if it still exists when the function returns. -/
def cleanupTemp (fs : FS) (p : String) : FS × Trace :=
  if statExists fs p then (removeFile fs p, [FsOp.remove p]) else (fs, [])

/-- Model of `generateArtworkAsync` (part_001): the transcoder writes
its output (if any) at the temporary path; on transcoder error, or
when the temporary file is missing or has zero size, the function
fails and the deferred cleanup removes any temporary file; otherwise
the temporary file is renamed onto the final path. -/
def generateArtworkAsync (fs : FS) (key : String) (ff : FfmpegOutcome) :
    Except String Unit × FS × Trace :=
  let temp := tempGifPath key
  let gif := gifPath key
  let fs1 := match ff.output with
    | some sz => setFile fs temp sz
    | none => fs
  let tr1 : Trace := match ff.output with
    | some sz => [FsOp.create temp, FsOp.write temp sz]
    | none => []
  if ff.err then
    let (fs2, tr2) := cleanupTemp fs1 temp
    (Except.error "ffmpeg command failed", fs2, tr1 ++ tr2)
  else
    match fs1 temp with
    | none => (Except.error "ffmpeg failed to create output file", fs1, tr1)
    | some sz =>
      if sz = 0 then
        let (fs2, tr2) := cleanupTemp fs1 temp
        (Except.error "ffmpeg failed to create output file", fs2, tr1 ++ tr2)
      else
        match renameFile fs1 temp gif with
        | Except.ok fs2 => (Except.ok (), fs2, tr1 ++ [FsOp.rename temp gif])
        | Except.error e =>
          let (fs3, tr3) := cleanupTemp fs1 temp
          (Except.error ("error renaming file: " ++ e), fs3, tr1 ++ tr3)

/-- Model of one `generateArtwork` request (part_001) as far as the
store is concerned: the handler checks the store and either answers
from cache, or runs the generation.  The first component reports
whether the generation pipeline ran.  The 30-second bounded wait only
selects the HTTP response and does not touch the store, so it is
outside the model. -/
def generateArtworkRequest (fs : FS) (key : String) (ff : FfmpegOutcome) :
    Bool × Except String Unit × FS × Trace :=
  if statExists fs (gifPath key) then (false, Except.ok (), fs, [])
  else
    let (r, fs2, tr) := generateArtworkAsync fs key ff
    (true, r, fs2, tr)

/-! ### Interleaving model of two concurrent generate requests -/

/-- One atomic step of a request in the interleaving model of the
`generateArtwork` handler: program counter 0 is the `os.Stat`
existence check (a hit finishes the request, a miss commits it to
generating), program counter 1 runs the whole generation pipeline and
commits the artifact as a single atomic action, counting one pipeline
execution.  Collapsing the pipeline into one atomic step only removes
interleavings, so any duplicate execution this coarse model exhibits
is also possible in the real, finer-grained program. -/
def reqStep (path : String) (fs : FS) (pc : Nat) (gens : Nat) :
    FS × Nat × Nat :=
  match pc with
  | 0 => if statExists fs path then (fs, 2, gens) else (fs, 1, gens)
  | 1 => (setFile fs path 1, 2, gens + 1)
  | _ => (fs, pc, gens)

/-- Joint state of two concurrent requests for the same key. -/
structure RaceState where
  fs : FS
  pcA : Nat
  pcB : Nat
  gens : Nat

/-- Let one of the two requests (chosen by the scheduler bit) take its
next atomic step. -/
def raceStep (path : String) (st : RaceState) (who : Bool) : RaceState :=
  if who then
    let (fs, pc, g) := reqStep path st.fs st.pcA st.gens
    ⟨fs, pc, st.pcB, g⟩
  else
    let (fs, pc, g) := reqStep path st.fs st.pcB st.gens
    ⟨fs, st.pcA, pc, g⟩

/-- Run two concurrent requests for a never-before-seen key (empty
store) under the given schedule. -/
def runRace (path : String) (sched : List Bool) : RaceState :=
  sched.foldl (raceStep path) ⟨emptyFS, 0, 0, 0⟩

example : (runRace "k.gif" [true, false, true, false]).gens = 2 := by decide
example : (runRace "k.gif" [true, true, false, false]).gens = 1 := by decide

/-! ### Rendition-level view of a manifest

The spec describes a manifest as a sequence of renditions, each
announced by a metadata line followed by a URL line.  The following
definitions give that rendition-level reading and the selection policy
in the spec's own words, to be compared with the line-level scanner
above. -/

/-- One rendition of the manifest: its metadata line and its URL
line. -/
structure Rendition where
  meta : String
  url : String

/-- A rendition is admissible when its parsed metadata passes
`isValidStream`. -/
def admissible (r : Rendition) : Bool :=
  isValidStream (parseStreamInfo r.meta)

/-- Width announced by a rendition. -/
def rWidth (r : Rendition) : Int :=
  (parseStreamInfo r.meta).width

/-- Streaming max-tracking selection, following the spec's words:
keep the earliest-seen admissible rendition of strictly largest
width. -/
def bestFrom : Option Rendition → List Rendition → Option Rendition
  | acc, [] => acc
  | none, r :: rs => bestFrom (if admissible r then some r else none) rs
  | some b, r :: rs =>
    bestFrom (if admissible r ∧ rWidth b < rWidth r then some r else some b) rs

/-- The rendition the spec's policy selects from a manifest. -/
def bestRendition (rs : List Rendition) : Option Rendition :=
  bestFrom none rs

/-- The line sequence a rendition list denotes: metadata line, then
URL line, for each rendition in order. -/
def manifestLines (rs : List Rendition) : List String :=
  rs.flatMap (fun r => [r.meta, r.url])

/-- Well-formed rendition list: every metadata line carries the
`#EXT-X-STREAM-INF:` tag and every URL line is absolute (starts with
`http`). -/
def wellFormed (rs : List Rendition) : Prop :=
  ∀ r ∈ rs, goHasPrefix r.meta "#EXT-X-STREAM-INF:" = true ∧
    goHasPrefix r.url "http" = true

/-- Processing one rendition is processing its two lines. -/
def scanRend (st : ScanState) (r : Rendition) : ScanState :=
  scanLine (scanLine st r.meta) r.url

/-- Invariant carried by the selection accumulator: a tracked
rendition is admissible and has an absolute URL line. -/
def accOK : Option Rendition → Prop
  | none => True
  | some b => admissible b = true ∧ goHasPrefix b.url "http" = true

/-- The scanner state corresponding to a selection accumulator: with
no admissible rendition seen, nothing is selected, no width recorded,
and the pending URL slot holds `c`; with rendition `b` tracked, its
URL is both selected and pending and its width is the maximum. -/
def stateFor : Option Rendition → String → ScanState
  | none, c => ⟨"", 0, c⟩
  | some b, _ => ⟨b.url, rWidth b, b.url⟩

/-- Value of the pending URL slot after scanning `rs` from a state
with no admissible rendition seen: the slot is filled by the first URL
line and never cleared while no admissible rendition arrives. -/
def curAfter (c : String) (rs : List Rendition) : String :=
  if c = "" then ((rs.head?).map Rendition.url).getD "" else c

/-! ### Commit discipline -/

/-- Whether an operation makes the final path observable directly:
creating the file there or writing bytes there (a rename to the final
path is the atomic commit and is allowed). -/
def opTouchesFinal (finalPath : String) : FsOp → Bool
  | FsOp.create p => p = finalPath
  | FsOp.write p _ => p = finalPath
  | _ => false

/-- Specification predicate, following the spec's words for `commit`:
the full payload is written only under a temporary name and the final
path is never created or written directly, so the artifact can appear
at its final name only through the atomic rename. -/
def commitViaTempOnly (tr : Trace) (finalPath : String) : Prop :=
  ∀ op ∈ tr, opTouchesFinal finalPath op = false

/-- Whether an operation changes the store at all. -/
def touchesStore : FsOp → Bool
  | FsOp.create _ => true
  | FsOp.write _ _ => true
  | FsOp.rename _ _ => true
  | FsOp.remove _ => true
  | _ => false

/-! ## Helper lemmas -/

theorem tempGifPath_ne_gifPath (key : String) : tempGifPath key ≠ gifPath key := by
  intro h
  have hl := congrArg String.length h
  rw [tempGifPath, gifPath, filepathJoin, filepathJoin] at hl
  simp only [String.length_append] at hl
  have h9 : "_temp.gif".length = 9 := by decide
  have h4 : ".gif".length = 4 := by decide
  rw [h9, h4] at hl
  omega

theorem setFile_self (fs : FS) (p : String) (sz : Nat) :
    setFile fs p sz p = some sz := by
  simp [setFile]

theorem setFile_ne (fs : FS) (p q : String) (sz : Nat) (h : q ≠ p) :
    setFile fs p sz q = fs q := by
  simp [setFile, h]

theorem removeFile_self (fs : FS) (p : String) : removeFile fs p p = none := by
  simp [removeFile]

theorem removeFile_ne (fs : FS) (p q : String) (h : q ≠ p) :
    removeFile fs p q = fs q := by
  simp [removeFile, h]

theorem goHasSuffix_iff (s suf : String) :
    goHasSuffix s suf = true ↔ suf.data <:+ s.data := by
  simp [goHasSuffix, List.isSuffixOf_iff_suffix]

theorem isValidAppleURL_isOk (hostname : String) :
    (isValidAppleURL hostname).isOk =
      (goHasSuffix hostname ".apple.com" || goHasSuffix hostname ".mzstatic.com") := by
  unfold isValidAppleURL
  by_cases h1 : goHasSuffix hostname ".apple.com" = true <;>
    by_cases h2 : goHasSuffix hostname ".mzstatic.com" = true <;>
      simp [h1, h2, Except.isOk, Except.toBool]

theorem valid_width_pos (info : StreamInfo) (h : isValidStream info = true) :
    0 < info.width := by
  unfold isValidStream at h
  simp only [Bool.and_eq_true, decide_eq_true_eq] at h
  omega

theorem http_ne_empty (u : String) (h : goHasPrefix u "http" = true) :
    u ≠ "" := by
  intro he
  subst he
  exact absurd h (by decide)

theorem http_not_meta (u : String) (h : goHasPrefix u "http" = true) :
    goHasPrefix u "#EXT-X-STREAM-INF:" = false := by
  unfold goHasPrefix at h ⊢
  rw [show "http".data = 'h' :: "ttp".data from rfl] at h
  rw [show "#EXT-X-STREAM-INF:".data = '#' :: "EXT-X-STREAM-INF:".data from rfl]
  cases hu : u.data with
  | nil =>
    rw [hu] at h
    exact absurd h (by decide)
  | cons c t =>
    rw [hu] at h
    simp only [List.isPrefixOf, Bool.and_eq_true, beq_iff_eq] at h
    obtain ⟨rfl, -⟩ := h
    simp [List.isPrefixOf]

theorem foldl_scanLine_manifestLines (rs : List Rendition) (st : ScanState) :
    (manifestLines rs).foldl scanLine st = rs.foldl scanRend st := by
  induction rs generalizing st with
  | nil => rfl
  | cons r rs ih => exact ih (scanRend st r)

theorem bestFrom_always_some (rs : List Rendition) (b : Rendition) :
    ∃ b2, bestFrom (some b) rs = some b2 := by
  induction rs generalizing b with
  | nil => exact ⟨b, rfl⟩
  | cons r rs ih =>
    by_cases h : admissible r = true ∧ rWidth b < rWidth r
    · rw [show bestFrom (some b) (r :: rs) = bestFrom (some r) rs from by
        simp only [bestFrom]
        rw [if_pos h]]
      exact ih r
    · rw [show bestFrom (some b) (r :: rs) = bestFrom (some b) rs from by
        simp only [bestFrom]
        rw [if_neg h]]
      exact ih b

theorem bestFrom_accOK (rs : List Rendition) (hwf : wellFormed rs) :
    ∀ acc, accOK acc → accOK (bestFrom acc rs) := by
  induction rs with
  | nil =>
    intro acc h
    simpa only [bestFrom] using h
  | cons r rs ih =>
    have hr := hwf r (List.mem_cons_self r rs)
    have hwf2 : wellFormed rs := fun x hx => hwf x (List.mem_cons_of_mem r hx)
    intro acc hacc
    match acc with
    | none =>
      by_cases hadm : admissible r = true
      · rw [show bestFrom none (r :: rs) = bestFrom (some r) rs from by
          simp only [bestFrom]
          rw [if_pos hadm]]
        exact ih hwf2 (some r) ⟨hadm, hr.2⟩
      · rw [show bestFrom none (r :: rs) = bestFrom none rs from by
          simp only [bestFrom]
          rw [if_neg hadm]]
        exact ih hwf2 none trivial
    | some b =>
      by_cases hcond : admissible r = true ∧ rWidth b < rWidth r
      · rw [show bestFrom (some b) (r :: rs) = bestFrom (some r) rs from by
          simp only [bestFrom]
          rw [if_pos hcond]]
        exact ih hwf2 (some r) ⟨hcond.1, hr.2⟩
      · rw [show bestFrom (some b) (r :: rs) = bestFrom (some b) rs from by
          simp only [bestFrom]
          rw [if_neg hcond]]
        exact ih hwf2 (some b) hacc

theorem scanLine_meta_valid_new_max (st : ScanState) (m : String)
    (hm : goHasPrefix m "#EXT-X-STREAM-INF:" = true)
    (hv : isValidStream (parseStreamInfo m) = true)
    (hw : st.maxWidth < (parseStreamInfo m).width) :
    scanLine st m =
      { st with maxWidth := (parseStreamInfo m).width, streamURL := "" } := by
  unfold scanLine
  rw [if_pos hm, if_pos hv, if_pos hw]

theorem scanLine_meta_no_new_max (st : ScanState) (m : String)
    (hm : goHasPrefix m "#EXT-X-STREAM-INF:" = true)
    (hno : ¬(isValidStream (parseStreamInfo m) = true ∧
      st.maxWidth < (parseStreamInfo m).width)) :
    scanLine st m = st := by
  unfold scanLine
  rw [if_pos hm]
  by_cases hv : isValidStream (parseStreamInfo m) = true
  · rw [if_pos hv, if_neg (fun hw => hno ⟨hv, hw⟩)]
  · rw [if_neg hv]

theorem scanLine_url_capture (st : ScanState) (u : String)
    (hu : goHasPrefix u "http" = true) (hcur : st.streamURL = "") :
    scanLine st u =
      if 0 < st.maxWidth then { st with selectedStreamURL := u, streamURL := u }
      else { st with streamURL := u } := by
  unfold scanLine
  rw [if_neg (by rw [http_not_meta u hu]; exact Bool.false_ne_true)]
  rw [if_pos (by rw [hu, hcur]; rfl)]

theorem scanLine_url_slot_full (st : ScanState) (u : String)
    (hu : goHasPrefix u "http" = true) (hcur : st.streamURL ≠ "") :
    scanLine st u = st := by
  unfold scanLine
  rw [if_neg (by rw [http_not_meta u hu]; exact Bool.false_ne_true)]
  rw [if_neg (fun hcontra => hcur (by
    rw [Bool.and_eq_true, beq_iff_eq] at hcontra
    exact hcontra.2))]

/-- The central refinement invariant of the scanning loop: scanning a
well-formed rendition list from the state corresponding to a selection
accumulator lands in the state corresponding to the accumulator after
the spec-side max-tracking fold. -/
theorem scan_invariant (rs : List Rendition) (hwf : wellFormed rs) :
    ∀ (acc : Option Rendition) (c : String), accOK acc →
      rs.foldl scanRend (stateFor acc c) =
        stateFor (bestFrom acc rs)
          (match acc with
           | none => curAfter c rs
           | some _ => "") := by
  induction rs with
  | nil =>
    intro acc c _
    match acc with
    | none =>
      show stateFor none c = stateFor none (curAfter c [])
      by_cases hc : c = "" <;> simp [curAfter, hc]
    | some b => rfl
  | cons r rs ih =>
    have hr := hwf r (List.mem_cons_self r rs)
    have hwf2 : wellFormed rs := fun x hx => hwf x (List.mem_cons_of_mem r hx)
    intro acc c hacc
    match acc with
    | none =>
      by_cases hadm : admissible r = true
      · have hstep : scanRend (stateFor none c) r = stateFor (some r) "" := by
          unfold scanRend
          rw [show stateFor none c = (⟨"", 0, c⟩ : ScanState) from rfl]
          rw [scanLine_meta_valid_new_max _ _ hr.1 hadm
            (valid_width_pos _ hadm)]
          rw [scanLine_url_capture _ _ hr.2 rfl]
          rw [if_pos (valid_width_pos _ hadm)]
          rfl
        rw [show (r :: rs).foldl scanRend (stateFor none c) =
            rs.foldl scanRend (scanRend (stateFor none c) r) from rfl]
        rw [hstep, ih hwf2 (some r) "" ⟨hadm, hr.2⟩]
        rw [show bestFrom none (r :: rs) = bestFrom (some r) rs from by
          simp only [bestFrom]
          rw [if_pos hadm]]
        obtain ⟨b2, hb2⟩ := bestFrom_always_some rs r
        rw [hb2]
        rfl
      · by_cases hc : c = ""
        · subst hc
          have hstep : scanRend (stateFor none "") r = stateFor none r.url := by
            unfold scanRend
            rw [scanLine_meta_no_new_max _ _ hr.1 (fun hx => hadm hx.1)]
            rw [scanLine_url_capture _ _ hr.2 rfl]
            rw [if_neg (by decide)]
            rfl
          rw [show (r :: rs).foldl scanRend (stateFor none "") =
              rs.foldl scanRend (scanRend (stateFor none "") r) from rfl]
          rw [hstep, ih hwf2 none r.url trivial]
          rw [show bestFrom none (r :: rs) = bestFrom none rs from by
            simp only [bestFrom]
            rw [if_neg hadm]]
          cases hbf : bestFrom none rs with
          | none =>
            show stateFor none (curAfter r.url rs) =
              stateFor none (curAfter "" (r :: rs))
            rw [show curAfter r.url rs = r.url from by
              simp [curAfter, http_ne_empty r.url hr.2]]
            rw [show curAfter "" (r :: rs) = r.url from by simp [curAfter]]
          | some b2 => rfl
        · have hstep : scanRend (stateFor none c) r = stateFor none c := by
            unfold scanRend
            rw [scanLine_meta_no_new_max _ _ hr.1 (fun hx => hadm hx.1)]
            exact scanLine_url_slot_full _ _ hr.2 hc
          rw [show (r :: rs).foldl scanRend (stateFor none c) =
              rs.foldl scanRend (scanRend (stateFor none c) r) from rfl]
          rw [hstep, ih hwf2 none c trivial]
          rw [show bestFrom none (r :: rs) = bestFrom none rs from by
            simp only [bestFrom]
            rw [if_neg hadm]]
          cases hbf : bestFrom none rs with
          | none =>
            show stateFor none (curAfter c rs) =
              stateFor none (curAfter c (r :: rs))
            rw [show curAfter c rs = c from by simp [curAfter, hc]]
            rw [show curAfter c (r :: rs) = c from by simp [curAfter, hc]]
          | some b2 => rfl
    | some b =>
      by_cases hcond : admissible r = true ∧ rWidth b < rWidth r
      · have hstep : scanRend (stateFor (some b) c) r = stateFor (some r) "" := by
          unfold scanRend
          rw [show stateFor (some b) c = ⟨b.url, rWidth b, b.url⟩ from rfl]
          rw [scanLine_meta_valid_new_max _ _ hr.1 hcond.1 hcond.2]
          rw [scanLine_url_capture _ _ hr.2 rfl]
          rw [if_pos (valid_width_pos _ hcond.1)]
          rfl
        rw [show (r :: rs).foldl scanRend (stateFor (some b) c) =
            rs.foldl scanRend (scanRend (stateFor (some b) c) r) from rfl]
        rw [hstep, ih hwf2 (some r) "" ⟨hcond.1, hr.2⟩]
        rw [show bestFrom (some b) (r :: rs) = bestFrom (some r) rs from by
          simp only [bestFrom]
          rw [if_pos hcond]]
      · have hstep : scanRend (stateFor (some b) c) r = stateFor (some b) c := by
          unfold scanRend
          rw [scanLine_meta_no_new_max _ _ hr.1
            (fun hx => hcond ⟨hx.1, hx.2⟩)]
          exact scanLine_url_slot_full _ _ hr.2 (http_ne_empty b.url hacc.2)
        rw [show (r :: rs).foldl scanRend (stateFor (some b) c) =
            rs.foldl scanRend (scanRend (stateFor (some b) c) r) from rfl]
        rw [hstep, ih hwf2 (some b) c hacc]
        rw [show bestFrom (some b) (r :: rs) = bestFrom (some b) rs from by
          simp only [bestFrom]
          rw [if_neg hcond]]

theorem scanLine_selected_cases (st : ScanState) (l : String) :
    (scanLine st l).selectedStreamURL = st.selectedStreamURL ∨
      ((scanLine st l).selectedStreamURL = l ∧
        goHasPrefix l "http" = true) := by
  unfold scanLine
  by_cases h1 : goHasPrefix l "#EXT-X-STREAM-INF:" = true
  · rw [if_pos h1]
    by_cases h2 : isValidStream (parseStreamInfo l) = true
    · rw [if_pos h2]
      by_cases h3 : st.maxWidth < (parseStreamInfo l).width
      · rw [if_pos h3]
        exact Or.inl rfl
      · rw [if_neg h3]
        exact Or.inl rfl
    · rw [if_neg h2]
      exact Or.inl rfl
  · rw [if_neg h1]
    by_cases h2 : (goHasPrefix l "http" && (st.streamURL == "")) = true
    · rw [if_pos h2]
      by_cases h3 : 0 < st.maxWidth
      · rw [if_pos h3]
        exact Or.inr ⟨rfl, ((Bool.and_eq_true _ _).mp h2).1⟩
      · rw [if_neg h3]
        exact Or.inl rfl
    · rw [if_neg h2]
      exact Or.inl rfl

theorem foldl_selected_sources (lines : List String) :
    ∀ st : ScanState,
      (lines.foldl scanLine st).selectedStreamURL = st.selectedStreamURL ∨
        ((lines.foldl scanLine st).selectedStreamURL ∈ lines ∧
          goHasPrefix (lines.foldl scanLine st).selectedStreamURL "http" = true) := by
  induction lines with
  | nil => exact fun st => Or.inl rfl
  | cons l ls ih =>
    intro st
    have hfold : (l :: ls).foldl scanLine st = ls.foldl scanLine (scanLine st l) :=
      rfl
    rcases ih (scanLine st l) with h | h
    · rcases scanLine_selected_cases st l with h2 | h2
      · left
        rw [hfold, h, h2]
      · right
        rw [hfold, h, h2.1]
        exact ⟨List.mem_cons_self l ls, h2.2⟩
    · right
      rw [hfold]
      exact ⟨List.mem_cons_of_mem l h.1, h.2⟩

/-! ## Claims -/

/-- C10: URL validation accepts a URL exactly when its hostname ends
with the suffix `.apple.com` or `.mzstatic.com`; in particular the
bare apex hostnames `apple.com` and `mzstatic.com` are rejected, while
strict subdomains such as `is1-ssl.mzstatic.com` pass. -/
theorem isValidAppleURL_iff_allowed_suffix :
    (∀ hostname : String,
        (isValidAppleURL hostname).isOk = true ↔
          ".apple.com".data <:+ hostname.data ∨
            ".mzstatic.com".data <:+ hostname.data) ∧
    (isValidAppleURL "apple.com").isOk = false ∧
    (isValidAppleURL "mzstatic.com").isOk = false ∧
    (isValidAppleURL "is1-ssl.mzstatic.com").isOk = true := by
  refine ⟨fun hostname => ?_, by decide, by decide, by decide⟩
  rw [isValidAppleURL_isOk]
  simp [goHasSuffix_iff]

/-- C4: the composite cache key is invariant under permutation of the
input URL list. -/
theorem generateArtistSquareKey_perm_invariant (l l' : List String)
    (h : l.Perm l') :
    (generateArtistSquareKey l).1 = (generateArtistSquareKey l').1 := by
  have hs : List.insertionSort (fun a b : String => a ≤ b) l =
      List.insertionSort (fun a b : String => a ≤ b) l' :=
    List.eq_of_perm_of_sorted
      ((List.perm_insertionSort _ l).trans
        (h.trans (List.perm_insertionSort _ l').symm))
      (List.sorted_insertionSort _ l) (List.sorted_insertionSort _ l')
  simp only [generateArtistSquareKey]
  rw [hs]

/-- Witness for C4 at the concrete permutation pair
`["b", "a"]` and `["a", "b"]`. -/
theorem generateArtistSquareKey_perm_invariant_witness :
    (["b", "a"] : List String).Perm ["a", "b"] ∧
      (generateArtistSquareKey ["b", "a"]).1 =
        (generateArtistSquareKey ["a", "b"]).1 :=
  ⟨by decide, generateArtistSquareKey_perm_invariant _ _ (by decide)⟩

/-- C9 counterexample: computing the composite key is not
side-effect free; for the caller's slice `["b", "a"]` the slice the
caller observes after the call is `["a", "b"]`, not the original
sequence, because `sort.Strings` sorts the slice in place. -/
theorem generateArtistSquareKey_mutates_caller_slice :
    (generateArtistSquareKey ["b", "a"]).2 ≠ ["b", "a"] := by
  have hba : ¬ (("b" : String) ≤ "a") := by
    rw [String.le_iff_toList_le]
    decide
  have h2 : (generateArtistSquareKey ["b", "a"]).2 = ["a", "b"] := by
    simp only [generateArtistSquareKey, List.insertionSort, List.orderedInsert]
    rw [if_neg hba]
  rw [h2]
  decide

/-- C9 amended: the key derivation sorts the caller's slice in place;
after the call the caller's sequence holds the same URLs as before
(as a multiset) in nondecreasing lexicographic order, and it equals
the original sequence only when that was already sorted. -/
theorem generateArtistSquareKey_sorts_caller_slice (l : List String) :
    ((generateArtistSquareKey l).2).Perm l ∧
      List.Sorted (fun a b : String => a ≤ b) (generateArtistSquareKey l).2 := by
  exact ⟨List.perm_insertionSort (fun a b : String => a ≤ b) l,
    List.sorted_insertionSort (fun a b : String => a ≤ b) l⟩

/-- C6: for every decoded image list whose length is outside
two-to-four, the composite-square creation fails with the
unsupported-count error and the job handler leaves the store
unchanged, performing no store operation at all. -/
theorem createArtistSquare_bad_count_writes_nothing
    (fs : FS) (key : String) (urls : List String) (images : List Image)
    (encSize : Nat)
    (h : ¬(images.length = 2 ∨ images.length = 3 ∨ images.length = 4)) :
    createArtistSquare images =
        Except.error ("unsupported number of images: " ++ toString images.length) ∧
    (HandleCreateArtistSquareTask fs key urls (Except.ok images) encSize).2.1 = fs ∧
    ∀ op ∈ (HandleCreateArtistSquareTask fs key urls (Except.ok images) encSize).2.2,
      touchesStore op = false := by
  have hcs : createArtistSquare images =
      Except.error ("unsupported number of images: " ++ toString images.length) := by
    obtain _ | ⟨i0, _ | ⟨i1, _ | ⟨i2, _ | ⟨i3, _ | ⟨i4, rest⟩⟩⟩⟩⟩ := images
    · rfl
    · rfl
    · exact absurd (Or.inl rfl) h
    · exact absurd (Or.inr (Or.inl rfl)) h
    · exact absurd (Or.inr (Or.inr rfl)) h
    · rfl
  refine ⟨hcs, ?_, ?_⟩ <;>
    by_cases hstat : statExists fs (squarePath key) = true
  · simp [HandleCreateArtistSquareTask, hstat]
  · simp [HandleCreateArtistSquareTask, hstat, hcs]
  · simp [HandleCreateArtistSquareTask, hstat]
  · intro op hop
    simp [HandleCreateArtistSquareTask, hstat, hcs] at hop
    rcases hop with ⟨u, _, rfl⟩ | rfl <;> rfl

/-- Witness for C6 at a single decoded image. -/
theorem createArtistSquare_bad_count_writes_nothing_witness :
    ¬((1 : Nat) = 2 ∨ (1 : Nat) = 3 ∨ (1 : Nat) = 4) ∧
    (createArtistSquare [⟨0⟩] =
        Except.error ("unsupported number of images: " ++
          toString ([Image.mk 0] : List Image).length) ∧
      (HandleCreateArtistSquareTask emptyFS "k" ["u"]
          (Except.ok [⟨0⟩]) 5).2.1 = emptyFS ∧
      ∀ op ∈ (HandleCreateArtistSquareTask emptyFS "k" ["u"]
          (Except.ok [⟨0⟩]) 5).2.2, touchesStore op = false) :=
  ⟨by decide,
    createArtistSquare_bad_count_writes_nothing emptyFS "k" ["u"] [⟨0⟩] 5 (by decide)⟩

/-- C7: a background-queue job whose target artifact already exists
returns success without performing any operation at all: no network
fetch, no transform, no store change. -/
theorem handlers_short_circuit_when_cached :
    (∀ (fs : FS) (key : String) (urls : List String)
        (dl : Except String (List Image)) (encSize : Nat),
        statExists fs (squarePath key) = true →
        HandleCreateArtistSquareTask fs key urls dl encSize =
          (Except.ok (), fs, [])) ∧
    (∀ (fs : FS) (key url : String) (dl : Except String Image) (encSize : Nat),
        statExists fs (icloudPath key) = true →
        HandleCreateICloudArtTask fs key url dl encSize =
          (Except.ok (), fs, [])) := by
  constructor
  · intro fs key urls dl encSize h
    simp [HandleCreateArtistSquareTask, h]
  · intro fs key url dl encSize h
    simp [HandleCreateICloudArtTask, h]

/-- Witness for C7: both handlers answer from cache on a store that
already holds the artifact. -/
theorem handlers_short_circuit_when_cached_witness :
    HandleCreateArtistSquareTask (setFile emptyFS (squarePath "k") 7) "k"
        ["u"] (Except.ok []) 0 =
      (Except.ok (), setFile emptyFS (squarePath "k") 7, []) ∧
    HandleCreateICloudArtTask (setFile emptyFS (icloudPath "k") 7) "k"
        "u" (Except.ok ⟨0⟩) 0 =
      (Except.ok (), setFile emptyFS (icloudPath "k") 7, []) :=
  ⟨handlers_short_circuit_when_cached.1 _ _ _ _ _ (by decide),
    handlers_short_circuit_when_cached.2 _ _ _ _ _ (by decide)⟩

/-- C2 counterexample: two concurrent requests for the same
never-before-seen key, interleaved as check, check, generate,
generate, execute the generation pipeline twice — not exactly once.
The pre-check of each request is the unsynchronized `os.Stat` of the
`generateArtwork` handler, and the whole pipeline of a request is
generously collapsed into one atomic step, so the duplicate execution
survives in any finer-grained interleaving semantics. -/
theorem runRace_two_generations :
    (runRace (gifPath "k") [true, false, true, false]).gens = 2 ∧
      (runRace (gifPath "k") [true, false, true, false]).gens ≠ 1 := by
  constructor <;> decide

/-- C2 amended: duplicate suppression comes only from the
unsynchronized existence pre-check: a request whose check observes the
committed artifact starts no generation, so two requests serialized
one after the other execute the pipeline exactly once; overlapping
requests, however, may both pass the check and both execute it. -/
theorem raceDedup_by_existence_check_only :
    (∀ (path : String) (fs : FS) (g : Nat),
        statExists fs path = true → reqStep path fs 0 g = (fs, 2, g)) ∧
    (runRace (gifPath "k") [true, true, false, false]).gens = 1 ∧
    (runRace (gifPath "k") [false, false, true, true]).gens = 1 := by
  refine ⟨fun path fs g h => ?_, by decide, by decide⟩
  simp [reqStep, h]

/-- Witness for the amended C2 at a store already holding the
artifact. -/
theorem raceDedup_by_existence_check_only_witness :
    statExists (setFile emptyFS (gifPath "k") 1) (gifPath "k") = true ∧
      reqStep (gifPath "k") (setFile emptyFS (gifPath "k") 1) 0 0 =
        (setFile emptyFS (gifPath "k") 1, 2, 0) :=
  ⟨by decide, raceDedup_by_existence_check_only.1 _ _ _ (by decide)⟩

/-- C5: starting from a key with no artifact (and no stale temporary),
a failed animated-clip generation — transcoder error, missing output,
or zero-size output — returns an error and leaves neither a temporary
nor a final file, so every subsequent request for the key finds the
Absent state and runs the generation again. -/
theorem generateArtworkAsync_failure_leaves_absent
    (fs : FS) (key : String) (ff : FfmpegOutcome)
    (habs : fs (gifPath key) = none)
    (htmp : fs (tempGifPath key) = none)
    (hfail : ff.err = true ∨ ff.output = none ∨ ff.output = some 0) :
    (generateArtworkAsync fs key ff).1.isOk = false ∧
    (generateArtworkAsync fs key ff).2.1 (tempGifPath key) = none ∧
    (generateArtworkAsync fs key ff).2.1 (gifPath key) = none ∧
    ∀ ff2 : FfmpegOutcome,
      (generateArtworkRequest (generateArtworkAsync fs key ff).2.1 key ff2).1 =
        true := by
  have hne : gifPath key ≠ tempGifPath key :=
    fun h => tempGifPath_ne_gifPath key h.symm
  obtain ⟨err, out⟩ := ff
  have habs2 : ∀ fs2 : FS, fs2 (gifPath key) = none →
      (∀ ff2 : FfmpegOutcome,
        (generateArtworkRequest fs2 key ff2).1 = true) := by
    intro fs2 h2 ff2
    simp [generateArtworkRequest, statExists, h2]
  cases err with
  | true =>
    cases out with
    | none =>
      have : generateArtworkAsync fs key ⟨true, none⟩ =
          (Except.error "ffmpeg command failed", fs, []) := by
        simp [generateArtworkAsync, cleanupTemp, statExists, htmp]
      rw [this]
      exact ⟨rfl, htmp, habs, habs2 fs habs⟩
    | some sz =>
      have : generateArtworkAsync fs key ⟨true, some sz⟩ =
          (Except.error "ffmpeg command failed",
            removeFile (setFile fs (tempGifPath key) sz) (tempGifPath key),
            [FsOp.create (tempGifPath key), FsOp.write (tempGifPath key) sz,
              FsOp.remove (tempGifPath key)]) := by
        simp [generateArtworkAsync, cleanupTemp, statExists, setFile_self]
      rw [this]
      have hgif : removeFile (setFile fs (tempGifPath key) sz) (tempGifPath key)
          (gifPath key) = none := by
        rw [removeFile_ne _ _ _ hne, setFile_ne _ _ _ _ hne]
        exact habs
      exact ⟨rfl, removeFile_self _ _, hgif, habs2 _ hgif⟩
  | false =>
    rcases hfail with hfail | hfail | hfail
    · exact absurd hfail (by simp)
    · simp only at hfail
      subst hfail
      have : generateArtworkAsync fs key ⟨false, none⟩ =
          (Except.error "ffmpeg failed to create output file", fs, []) := by
        simp [generateArtworkAsync, htmp]
      rw [this]
      exact ⟨rfl, htmp, habs, habs2 fs habs⟩
    · simp only at hfail
      subst hfail
      have : generateArtworkAsync fs key ⟨false, some 0⟩ =
          (Except.error "ffmpeg failed to create output file",
            removeFile (setFile fs (tempGifPath key) 0) (tempGifPath key),
            [FsOp.create (tempGifPath key), FsOp.write (tempGifPath key) 0,
              FsOp.remove (tempGifPath key)]) := by
        simp [generateArtworkAsync, cleanupTemp, statExists, setFile_self]
      rw [this]
      have hgif : removeFile (setFile fs (tempGifPath key) 0) (tempGifPath key)
          (gifPath key) = none := by
        rw [removeFile_ne _ _ _ hne, setFile_ne _ _ _ _ hne]
        exact habs
      exact ⟨rfl, removeFile_self _ _, hgif, habs2 _ hgif⟩

/-- Witness for C5: a transcoder failure on a fresh key. -/
theorem generateArtworkAsync_failure_leaves_absent_witness :
    (generateArtworkAsync emptyFS "k" ⟨true, some 3⟩).1.isOk = false ∧
    (generateArtworkAsync emptyFS "k" ⟨true, some 3⟩).2.1 (tempGifPath "k") = none ∧
    (generateArtworkAsync emptyFS "k" ⟨true, some 3⟩).2.1 (gifPath "k") = none ∧
    ∀ ff2 : FfmpegOutcome,
      (generateArtworkRequest (generateArtworkAsync emptyFS "k" ⟨true, some 3⟩).2.1
        "k" ff2).1 = true :=
  generateArtworkAsync_failure_leaves_absent emptyFS "k" ⟨true, some 3⟩
    rfl rfl (Or.inl rfl)

/-- C1 amended, positive part: the animated-clip generation does obey
the atomic commit discipline: its trace never creates or writes the
final artifact path directly — the final name can only appear as the
target of the rename — and a successful run leaves a file of non-zero
size at the final path. -/
theorem generateArtworkAsync_commit_discipline
    (fs : FS) (key : String) (ff : FfmpegOutcome) :
    commitViaTempOnly (generateArtworkAsync fs key ff).2.2 (gifPath key) ∧
    ((generateArtworkAsync fs key ff).1.isOk = true →
      ∃ sz, sz ≠ 0 ∧
        (generateArtworkAsync fs key ff).2.1 (gifPath key) = some sz) := by
  have hne := tempGifPath_ne_gifPath key
  have hops : ∀ sz, opTouchesFinal (gifPath key) (FsOp.create (tempGifPath key)) = false ∧
      opTouchesFinal (gifPath key) (FsOp.write (tempGifPath key) sz) = false ∧
      opTouchesFinal (gifPath key) (FsOp.remove (tempGifPath key)) = false ∧
      opTouchesFinal (gifPath key)
        (FsOp.rename (tempGifPath key) (gifPath key)) = false := by
    intro sz
    refine ⟨?_, ?_, rfl, rfl⟩ <;> simp [opTouchesFinal, hne]
  obtain ⟨err, out⟩ := ff
  cases err with
  | true =>
    cases out with
    | none =>
      by_cases hst : statExists fs (tempGifPath key) = true
      · have hrun : generateArtworkAsync fs key ⟨true, none⟩ =
            (Except.error "ffmpeg command failed", removeFile fs (tempGifPath key),
              [FsOp.remove (tempGifPath key)]) := by
          simp [generateArtworkAsync, cleanupTemp, hst]
        rw [hrun]
        refine ⟨?_, by intro h; simp [Except.isOk, Except.toBool] at h⟩
        intro op hop
        simp only [List.mem_singleton] at hop
        subst hop
        exact (hops 0).2.2.1
      · have hrun : generateArtworkAsync fs key ⟨true, none⟩ =
            (Except.error "ffmpeg command failed", fs, []) := by
          simp [generateArtworkAsync, cleanupTemp, hst]
        rw [hrun]
        exact ⟨by intro op hop; simp at hop,
          by intro h; simp [Except.isOk, Except.toBool] at h⟩
    | some sz =>
      have hrun : generateArtworkAsync fs key ⟨true, some sz⟩ =
          (Except.error "ffmpeg command failed",
            removeFile (setFile fs (tempGifPath key) sz) (tempGifPath key),
            [FsOp.create (tempGifPath key), FsOp.write (tempGifPath key) sz,
              FsOp.remove (tempGifPath key)]) := by
        simp [generateArtworkAsync, cleanupTemp, statExists, setFile_self]
      rw [hrun]
      refine ⟨?_, by intro h; simp [Except.isOk, Except.toBool] at h⟩
      intro op hop
      simp only [List.mem_cons, List.mem_singleton, List.not_mem_nil] at hop
      rcases hop with rfl | rfl | rfl | h
      · exact (hops sz).1
      · exact (hops sz).2.1
      · exact (hops sz).2.2.1
      · exact absurd h (by simp)
  | false =>
    cases out with
    | none =>
      rcases hft : fs (tempGifPath key) with _ | sz
      · have hrun : generateArtworkAsync fs key ⟨false, none⟩ =
            (Except.error "ffmpeg failed to create output file", fs, []) := by
          simp [generateArtworkAsync, hft]
        rw [hrun]
        exact ⟨by intro op hop; simp at hop,
          by intro h; simp [Except.isOk, Except.toBool] at h⟩
      · by_cases hsz : sz = 0
        · subst hsz
          have hrun : generateArtworkAsync fs key ⟨false, none⟩ =
              (Except.error "ffmpeg failed to create output file",
                removeFile fs (tempGifPath key), [FsOp.remove (tempGifPath key)]) := by
            simp [generateArtworkAsync, hft, cleanupTemp, statExists]
          rw [hrun]
          refine ⟨?_, by intro h; simp [Except.isOk, Except.toBool] at h⟩
          intro op hop
          simp only [List.mem_singleton] at hop
          subst hop
          exact (hops 0).2.2.1
        · have hrun : generateArtworkAsync fs key ⟨false, none⟩ =
              (Except.ok (),
                setFile (removeFile fs (tempGifPath key)) (gifPath key) sz,
                [FsOp.rename (tempGifPath key) (gifPath key)]) := by
            simp [generateArtworkAsync, hft, renameFile, hsz]
          rw [hrun]
          refine ⟨?_, fun _ => ⟨sz, hsz, setFile_self _ _ _⟩⟩
          intro op hop
          simp only [List.mem_singleton] at hop
          subst hop
          exact (hops 0).2.2.2
    | some sz =>
      by_cases hsz : sz = 0
      · subst hsz
        have hrun : generateArtworkAsync fs key ⟨false, some 0⟩ =
            (Except.error "ffmpeg failed to create output file",
              removeFile (setFile fs (tempGifPath key) 0) (tempGifPath key),
              [FsOp.create (tempGifPath key), FsOp.write (tempGifPath key) 0,
                FsOp.remove (tempGifPath key)]) := by
          simp [generateArtworkAsync, cleanupTemp, statExists, setFile_self]
        rw [hrun]
        refine ⟨?_, by intro h; simp [Except.isOk, Except.toBool] at h⟩
        intro op hop
        simp only [List.mem_cons, List.mem_singleton, List.not_mem_nil] at hop
        rcases hop with rfl | rfl | rfl | h
        · exact (hops 0).1
        · exact (hops 0).2.1
        · exact (hops 0).2.2.1
        · exact absurd h (by simp)
      · have hrun : generateArtworkAsync fs key ⟨false, some sz⟩ =
            (Except.ok (),
              setFile (removeFile (setFile fs (tempGifPath key) sz)
                (tempGifPath key)) (gifPath key) sz,
              [FsOp.create (tempGifPath key), FsOp.write (tempGifPath key) sz,
                FsOp.rename (tempGifPath key) (gifPath key)]) := by
          simp [generateArtworkAsync, setFile_self, renameFile, hsz]
        rw [hrun]
        refine ⟨?_, fun _ => ⟨sz, hsz, setFile_self _ _ _⟩⟩
        intro op hop
        simp only [List.mem_cons, List.mem_singleton, List.not_mem_nil] at hop
        rcases hop with rfl | rfl | rfl | h
        · exact (hops sz).1
        · exact (hops sz).2.1
        · exact (hops sz).2.2.2
        · exact absurd h (by simp)

/-- Witness for the amended C1 at a successful transcoder run on a
fresh key. -/
theorem generateArtworkAsync_commit_discipline_witness :
    commitViaTempOnly (generateArtworkAsync emptyFS "k" ⟨false, some 7⟩).2.2
        (gifPath "k") ∧
      ∃ sz, sz ≠ 0 ∧
        (generateArtworkAsync emptyFS "k" ⟨false, some 7⟩).2.1 (gifPath "k") =
          some sz :=
  ⟨(generateArtworkAsync_commit_discipline emptyFS "k" ⟨false, some 7⟩).1,
    (generateArtworkAsync_commit_discipline emptyFS "k" ⟨false, some 7⟩).2
      (by decide)⟩

/-- C1 counterexample: committing a composite square does not follow
the temporary-path discipline.  On a fresh store, a successful
artist-square job creates and writes the final artifact path
directly (`os.Create` + `jpeg.Encode` in `saveJPEG`), so the claim
that every artifact class commits through a temporary path and a
rename is false. -/
theorem artistSquare_commit_not_via_temp :
    ¬ commitViaTempOnly
      (HandleCreateArtistSquareTask emptyFS "k" ["u1", "u2"]
        (Except.ok [⟨1⟩, ⟨2⟩]) 9).2.2 (squarePath "k") := by
  intro h
  have hc := h (FsOp.create (squarePath "k")) (by decide)
  exact absurd hc (by decide)

/-- C3: for every manifest given as a well-formed rendition list —
each rendition announced by a tagged metadata line immediately
followed by an absolute URL line — the selector returns the resolved
URL of the admissible rendition (codec list excludes `hvc1`, includes
`avc1`, width at least 450) with the strictly largest width of the
single forward scan, ties keeping the earliest-seen, and fails when no
rendition is admissible.  The claim's concrete 320/480/720 example is
the witness theorem. -/
theorem getHighQualityStreamURL_selects_max_width
    (base : String) (rs : List Rendition) (hwf : wellFormed rs) :
    getHighQualityStreamURL base (manifestLines rs) =
      match bestRendition rs with
      | some b => Except.ok (resolveURL base b.url)
      | none => Except.error "no suitable stream found" := by
  unfold getHighQualityStreamURL
  rw [foldl_scanLine_manifestLines]
  rw [show initScanState = stateFor none "" from rfl]
  rw [scan_invariant rs hwf none "" trivial]
  unfold bestRendition
  cases hbf : bestFrom none rs with
  | none => rfl
  | some b =>
    have hok := bestFrom_accOK rs hwf none trivial
    rw [hbf] at hok
    have hne : b.url ≠ "" := http_ne_empty _ hok.2
    simp only [stateFor]
    rw [if_neg hne]

/-- Witness for C3: the spec's example manifest with admissible
renditions of widths 320 and 480 and an inadmissible 720 rendition
selects the 480-width rendition's URL. -/
theorem getHighQualityStreamURL_selects_max_width_witness :
    wellFormed
      [⟨"#EXT-X-STREAM-INF:BANDWIDTH=1000,CODECS=\"avc1\",RESOLUTION=320x180",
          "http://example.com/320.m3u8"⟩,
        ⟨"#EXT-X-STREAM-INF:BANDWIDTH=2000,CODECS=\"avc1\",RESOLUTION=480x270",
          "http://example.com/480.m3u8"⟩,
        ⟨"#EXT-X-STREAM-INF:BANDWIDTH=3000,CODECS=\"hvc1\",RESOLUTION=720x404",
          "http://example.com/720.m3u8"⟩] ∧
    getHighQualityStreamURL "https://example.apple.com/master.m3u8"
        (manifestLines
          [⟨"#EXT-X-STREAM-INF:BANDWIDTH=1000,CODECS=\"avc1\",RESOLUTION=320x180",
              "http://example.com/320.m3u8"⟩,
            ⟨"#EXT-X-STREAM-INF:BANDWIDTH=2000,CODECS=\"avc1\",RESOLUTION=480x270",
              "http://example.com/480.m3u8"⟩,
            ⟨"#EXT-X-STREAM-INF:BANDWIDTH=3000,CODECS=\"hvc1\",RESOLUTION=720x404",
              "http://example.com/720.m3u8"⟩]) =
      Except.ok "http://example.com/480.m3u8" := by
  have hwf : wellFormed
      [⟨"#EXT-X-STREAM-INF:BANDWIDTH=1000,CODECS=\"avc1\",RESOLUTION=320x180",
          "http://example.com/320.m3u8"⟩,
        ⟨"#EXT-X-STREAM-INF:BANDWIDTH=2000,CODECS=\"avc1\",RESOLUTION=480x270",
          "http://example.com/480.m3u8"⟩,
        ⟨"#EXT-X-STREAM-INF:BANDWIDTH=3000,CODECS=\"hvc1\",RESOLUTION=720x404",
          "http://example.com/720.m3u8"⟩] := by
    unfold wellFormed
    decide
  refine ⟨hwf, ?_⟩
  rw [getHighQualityStreamURL_selects_max_width _ _ hwf]
  rfl

/-- C8 counterexample: a manifest whose only (admissible,
maximum-width) rendition is announced with a relative URL line.  The
claim says the selector still selects it and returns its URL resolved
against the manifest URL; the code instead recognizes URL lines only
when they begin with `http`, so it never captures the rendition and
fails with the no-suitable-stream error. -/
theorem relative_url_rendition_not_selected :
    getHighQualityStreamURL "https://example.apple.com/a/master.m3u8"
        ["#EXT-X-STREAM-INF:CODECS=\"avc1\",RESOLUTION=480x270",
          "media/480.m3u8"] =
      Except.error "no suitable stream found" ∧
    getHighQualityStreamURL "https://example.apple.com/a/master.m3u8"
        ["#EXT-X-STREAM-INF:CODECS=\"avc1\",RESOLUTION=480x270",
          "media/480.m3u8"] ≠
      Except.ok (resolveURL "https://example.apple.com/a/master.m3u8"
        "media/480.m3u8") := by
  have h1 : getHighQualityStreamURL "https://example.apple.com/a/master.m3u8"
      ["#EXT-X-STREAM-INF:CODECS=\"avc1\",RESOLUTION=480x270",
        "media/480.m3u8"] =
      Except.error "no suitable stream found" := rfl
  refine ⟨h1, fun hc => ?_⟩
  rw [h1] at hc
  exact Except.noConfusion hc

/-- C8 amended: only URL lines beginning with `http` are ever
recognized by the scanner, so every URL the selector returns is the
resolution of an absolute URL line of the manifest; a rendition
announced by a relative URL line is never selectable. -/
theorem stream_selector_returns_only_absolute_lines
    (base : String) (lines : List String) (u : String)
    (h : getHighQualityStreamURL base lines = Except.ok u) :
    ∃ line, line ∈ lines ∧ goHasPrefix line "http" = true ∧
      u = resolveURL base line := by
  unfold getHighQualityStreamURL at h
  by_cases hsel : (lines.foldl scanLine initScanState).selectedStreamURL = ""
  · rw [if_pos hsel] at h
    exact absurd h (by simp)
  · rw [if_neg hsel] at h
    have hu : u =
        resolveURL base (lines.foldl scanLine initScanState).selectedStreamURL := by
      injection h with h2
      exact h2.symm
    rcases foldl_selected_sources lines initScanState with h2 | h2
    · exact absurd h2 hsel
    · exact ⟨_, h2.1, h2.2, hu⟩

/-- Witness for the amended C8: the selected URL of an
absolute-URL manifest is traced back to its absolute URL line. -/
theorem stream_selector_returns_only_absolute_lines_witness :
    ∃ line,
      line ∈ ["#EXT-X-STREAM-INF:CODECS=\"avc1\",RESOLUTION=480x270",
        "http://example.com/480abs.m3u8"] ∧
      goHasPrefix line "http" = true ∧
      "http://example.com/480abs.m3u8" =
        resolveURL "https://example.apple.com/master.m3u8" line :=
  stream_selector_returns_only_absolute_lines
    "https://example.apple.com/master.m3u8"
    ["#EXT-X-STREAM-INF:CODECS=\"avc1\",RESOLUTION=480x270",
      "http://example.com/480abs.m3u8"]
    "http://example.com/480abs.m3u8" (by rfl)

end AniArt
